import Mathlib

/-!
Shallow embedding of `src/main.py` (a TCM tongue-diagnosis assistant):
the reference table `TONGUE_DATABASE`, the `UserHealthManager` store
operations (`create_user`, `add_tongue_record`,
`update_constitution_trends`, `get_user_history`,
`get_constitution_analysis`), the `enhanced_tongue_analysis` tool, the
history formatter and the weather-advice composer.

Effects are made explicit: each call to `datetime.now().isoformat()`
and `uuid.uuid4()` becomes a `date` / `record_id` parameter; the global
user dictionary (`user_manager.users`) becomes an association list
threaded through each operation (Python dicts preserve insertion order
and update values in place, exactly as the association-list operations
below do); `save_data` only mirrors the in-memory state to disk and is
the identity on that state, so it has no counterpart here.  Formatted
output strings are replaced by structured result values carrying
exactly the data the Python code interpolates into them; the string
rendering itself is injective in those data and is not modelled.
ISO-8601 timestamp strings (as produced by `isoformat()`) compare
lexicographically exactly as they compare chronologically, so `date`
fields stay `String` and Python's string comparison is Lean's `String`
linear order.
-/

namespace Tcm

/-- One value of the `TONGUE_DATABASE` dictionary (`src/main.py`
lines 72-129): constitution (體質), symptom list (症狀), advice (建議),
food-remedy list (食療), taboo list (禁忌) and theory text (中醫理論). -/
structure TongueInfo where
  constitution : String
  symptoms : List String
  advice : String
  remedies : List String
  taboos : List String
  theory : String
deriving DecidableEq, Repr

/-- The static reference table `TONGUE_DATABASE` (`src/main.py` lines
72-129), as an insertion-ordered association list. -/
def redDotProfile : TongueInfo :=
  { constitution := "內熱過盛"
    symptoms := ["口乾", "煩躁", "失眠"]
    advice := "清熱降火，避免辛辣食物"
    remedies := ["菊花茶", "蓮子心茶", "綠豆湯"]
    taboos := ["辛辣", "油炸", "燒烤"]
    theory := "舌起紅點多為心火上炎或胃熱熾盛之象" }

def liverQiProfile : TongueInfo :=
  { constitution := "肝氣鬱結"
    symptoms := ["情緒不穩", "脅痛", "月經不調"]
    advice := "疏肝理氣，保持心情愉快"
    remedies := ["玫瑰花茶", "陳皮茶", "柴胡疏肝散"]
    taboos := ["過度勞累", "情緒激動"]
    theory := "舌邊尖紅為肝膽火旺，情志不遂所致" }

def toothMarkProfile : TongueInfo :=
  { constitution := "脾虛濕重"
    symptoms := ["疲勞", "腹脹", "大便溏薄"]
    advice := "健脾祛濕，適量運動"
    remedies := ["四神湯", "薏仁水", "茯苓餅"]
    taboos := ["生冷食物", "甜膩食物"]
    theory := "舌邊有齒痕乃脾氣虛弱，舌體胖嫩所致" }

def fissureProfile : TongueInfo :=
  { constitution := "脾胃虛弱"
    symptoms := ["食慾不振", "消化不良", "面色萎黃"]
    advice := "健脾養胃，規律飲食"
    remedies := ["山藥粥", "蓮子湯", "白朮茶"]
    taboos := ["過飽過餓", "冰冷飲品"]
    theory := "舌有裂紋多為陰虛或脾胃氣虛，津液不足" }

def yellowCoatProfile : TongueInfo :=
  { constitution := "濕熱體質"
    symptoms := ["口苦", "小便黃", "大便黏膩"]
    advice := "清熱利濕，飲食清淡"
    remedies := ["茵陳蒿茶", "綠豆薏仁湯", "冬瓜湯"]
    taboos := ["油膩食物", "酒類", "甜食"]
    theory := "苔黃而厚為胃腸積熱，濕熱內蘊之象" }

def whiteCoatProfile : TongueInfo :=
  { constitution := "寒濕體質"
    symptoms := ["畏寒", "腹脹", "大便溏薄"]
    advice := "溫陽化濕，避免生冷"
    remedies := ["生薑茶", "肉桂茶", "附子理中湯"]
    taboos := ["生冷食物", "寒涼水果"]
    theory := "苔白而厚為寒濕內盛，脾陽不振之證" }

def healthyProfile : TongueInfo :=
  { constitution := "健康舌相"
    symptoms := ["無明顯不適"]
    advice := "保持現狀，預防為主"
    remedies := ["均衡飲食", "適量運動"]
    taboos := ["過度進補"]
    theory := "舌淡紅苔薄白為正常舌象，氣血調和之徵" }

def TONGUE_DATABASE : List (String × TongueInfo) :=
  [ ("舌頭有紅點", redDotProfile),
    ("舌尖及側邊發紅", liverQiProfile),
    ("舌頭有齒痕", toothMarkProfile),
    ("舌頭有溝痕", fissureProfile),
    ("舌苔黃厚", yellowCoatProfile),
    ("舌苔白厚", whiteCoatProfile),
    ("淡紅色舌且舌苔淺白", healthyProfile) ]

/-- The observation keys of the table, in insertion order: Python's
`list(TONGUE_DATABASE.keys())` (`src/main.py` lines 243, 252). -/
def tongueKeys : List String := TONGUE_DATABASE.map Prod.fst

/-- One element of a user's `tongue_records` list (`src/main.py` lines
177-184).  The `weather_info` field of the Python record is a fixed
format string around the same clock reading as `date`; it is modelled
as that raw timestamp prefixed by the same literal text. -/
structure TongueRecord where
  record_id : String
  date : String
  tongue_type : String
  constitution : String
  symptoms : List String
  weather_info : String
deriving DecidableEq, Repr, Inhabited

/-- One value of the `self.users` dictionary (`src/main.py` lines
158-166).  `constitution_trends` is the insertion-ordered Python dict
mapping constitution labels to counts; `preferences` likewise. -/
structure UserData where
  name : String
  age : Nat
  gender : String
  created_at : String
  tongue_records : List TongueRecord
  constitution_trends : List (String × Nat)
  preferences : List (String × String)
deriving DecidableEq, Repr

/-- The whole `self.users` dictionary: user id to `UserData`, in
insertion order. -/
abbrev Store := List (String × UserData)

/-- The fresh user document built by `create_user` (`src/main.py`
lines 158-166). -/
def initUser (name : String) (age : Nat) (gender created_at : String) : UserData :=
  { name := name, age := age, gender := gender, created_at := created_at
    tongue_records := [], constitution_trends := [], preferences := [] }

/-- `UserHealthManager.create_user` (`src/main.py` lines 155-170):
returns `false` and leaves the store untouched when the id exists,
otherwise inserts a fresh document (Python dict insertion appends at
the end) and returns `true`.  `created_at` stands for the
`datetime.now().isoformat()` reading. -/
def create_user (users : Store) (user_id name : String) (age : Nat)
    (gender created_at : String) : Bool × Store :=
  if (users.lookup user_id).isSome then (false, users)
  else (true, users ++ [(user_id, initUser name age gender created_at)])

/-- Python dict value update in place: replaces the value at `user_id`
(keeping its position) and is the identity when the key is absent. -/
def updateUser : Store → String → (UserData → UserData) → Store
  | [], _, _ => []
  | (k, u) :: rest, user_id, f =>
      if k = user_id then (k, f u) :: rest else (k, u) :: updateUser rest user_id f

/-- The record dictionary built by `add_tongue_record` (`src/main.py`
lines 177-184); `record_id` stands for `str(uuid.uuid4())` and `date`
for `datetime.now().isoformat()`. -/
def mkRecord (record_id date tongue_type constitution : String)
    (symptoms : List String) : TongueRecord :=
  { record_id := record_id, date := date, tongue_type := tongue_type
    constitution := constitution, symptoms := symptoms
    weather_info := "記錄時間: " ++ date }

/-- `UserHealthManager.update_constitution_trends` (`src/main.py`
lines 192-195), restricted to its pure core on the trends dict:
`trends[constitution] = trends.get(constitution, 0) + 1` increments an
existing key in place or appends a fresh key with count 1. -/
def update_constitution_trends : List (String × Nat) → String → List (String × Nat)
  | [], constitution => [(constitution, 1)]
  | (k, n) :: rest, constitution =>
      if k = constitution then (k, n + 1) :: rest
      else (k, n) :: update_constitution_trends rest constitution

/-- `UserHealthManager.add_tongue_record` (`src/main.py` lines
172-190): auto-creates the user when absent (with empty name, age 0,
empty gender), appends the new record, bumps the constitution counter
and returns the record id. -/
def add_tongue_record (users : Store) (user_id tongue_type constitution : String)
    (symptoms : List String) (record_id date : String) : String × Store :=
  let users1 := if (users.lookup user_id).isSome then users
    else (create_user users user_id "" 0 "" date).2
  let newRecord := mkRecord record_id date tongue_type constitution symptoms
  let users2 := updateUser users1 user_id fun u =>
    { u with tongue_records := u.tongue_records ++ [newRecord]
             constitution_trends := update_constitution_trends u.constitution_trends constitution }
  (record_id, users2)

/-- Python's lexicographic string comparison `a <= b`, character by
character on code points (executable, used as the sort key comparison
of `get_user_history`). -/
def charLe : List Char → List Char → Bool
  | [], _ => true
  | _ :: _, [] => false
  | a :: as, b :: bs =>
      if a.toNat < b.toNat then true
      else if b.toNat < a.toNat then false
      else charLe as bs

/-- Python's `a <= b` on the two date strings. -/
def dateLe (a b : String) : Bool := charLe a.data b.data

/-- The sort order of `get_user_history`: `sorted(records, key=lambda
x: x["date"], reverse=True)` puts records with the larger (later) date
first.  `dateGe a b` says `a` may come before `b`. -/
def dateGe (a b : TongueRecord) : Prop := dateLe b.date a.date = true

instance : DecidableRel dateGe := fun a b =>
  inferInstanceAs (Decidable (dateLe b.date a.date = true))

/-- Python's `sorted(records, key=lambda x: x["date"], reverse=True)`:
a stable sort putting later dates first (ties keep list order, which is
also what `List.insertionSort` does). -/
def sortRecords (l : List TongueRecord) : List TongueRecord :=
  l.insertionSort dateGe

/-- `UserHealthManager.get_user_history` (`src/main.py` lines 197-202):
most-recent-first, truncated to `limit`; the empty list for an unknown
user. -/
def get_user_history (users : Store) (user_id : String) (limit : Nat) :
    List TongueRecord :=
  match users.lookup user_id with
  | some u => (sortRecords u.tongue_records).take limit
  | none => []

/-- Result of `get_constitution_analysis` (`src/main.py` lines
204-226): the `{"error": ...}` dict, the `{"message": ...}` dict, or
the full analysis payload. -/
inductive AnalysisResult where
  | error (msg : String)
  | message (msg : String)
  | ok (recent_constitution most_common_constitution : String)
      (constitution_frequency : List (String × Nat))
      (recent_trend : List String)
      (total_records : Nat)
deriving DecidableEq, Repr

/-- Python's `max(items, key=lambda item: item[1])` folded over the
tail with the running best: the candidate replaces the best only when
its count is strictly greater, so ties keep the earlier element. -/
def pyMaxBySnd : String × Nat → List (String × Nat) → String × Nat
  | best, [] => best
  | best, x :: rest => if best.2 < x.2 then pyMaxBySnd x rest else pyMaxBySnd best rest

/-- `max(trends.items(), key=lambda item: item[1]) if trends else
("未知", 0)` (`src/main.py` line 216). -/
def most_common_of (trends : List (String × Nat)) : String × Nat :=
  match trends with
  | [] => ("未知", 0)
  | t :: rest => pyMaxBySnd t rest

/-- The maximum count in the frequency dict (0 when empty). -/
def maxCount (trends : List (String × Nat)) : Nat :=
  (trends.map Prod.snd).foldr Nat.max 0


/-- `UserHealthManager.get_constitution_analysis` (`src/main.py` lines
204-226).  `records[-1]` is the last record, `records[-5:]` the last
five (all of them when fewer). -/
def get_constitution_analysis (users : Store) (user_id : String) : AnalysisResult :=
  match users.lookup user_id with
  | none => .error "用戶不存在"
  | some u =>
    let trends := u.constitution_trends
    let records := u.tongue_records
    match records.getLast? with
    | none => .message "暫無記錄可供分析"
    | some lastRecord =>
        .ok lastRecord.constitution (most_common_of trends).1 trends
          ((records.drop (records.length - 5)).map (fun r => r.constitution))
          records.length

/-- Result of the `enhanced_tongue_analysis` tool (`src/main.py` lines
234-301): the "輸入格式錯誤" message listing the available observation
keys, the "未收錄此舌象類型" message listing them, or the analysis
text, which interpolates the record id, the tongue type, every field of
the stored profile, and (when symptoms were supplied) the matched and
unmatched symptom lists. -/
inductive ToolResult where
  | formatError (available_types : List String)
  | unknownType (tongue_type : String) (available_types : List String)
  | analysis (record_id tongue_type : String) (info : TongueInfo)
      (matched_symptoms unmatched_symptoms : List String)
deriving DecidableEq, Repr

/-- Python's `str.split(sep)` for a one-character separator, on the
character list: splits between separators and keeps empty pieces, so
the result always has one more piece than there are separators
(`"".split` gives `[""]`, `"a|".split("|")` gives `["a", ""]`). -/
def splitOnChar (sep : Char) : List Char → List (List Char)
  | [] => [[]]
  | c :: cs =>
      let rest := splitOnChar sep cs
      if c = sep then [] :: rest
      else (c :: rest.headD []) :: rest.tail

/-- Python's `str.split(sep)` for a one-character separator. -/
def pySplit (s : String) (sep : Char) : List String :=
  (splitOnChar sep s.data).map fun l => ⟨l⟩

/-- Python's `str.strip()`: drop whitespace from both ends. -/
def trimChars (l : List Char) : List Char :=
  ((l.dropWhile Char.isWhitespace).reverse.dropWhile Char.isWhitespace).reverse

/-- Python's `str.strip()`. -/
def pyStrip (s : String) : String := ⟨trimChars s.data⟩

/-- Python's substring test `s in expected` on strings: the character
sequence of `s` occurs contiguously inside that of `expected`. -/
def substrB (s expected : String) : Bool := decide (s.data <:+: expected.data)

/-- The per-symptom classification of `src/main.py` lines 289-290:
`any(s in expected for expected in tongue_info["症狀"])` — the
user-supplied symptom `s` is a substring of some profile symptom. -/
def symptomMatches (s : String) (profileSymptoms : List String) : Bool :=
  profileSymptoms.any fun expected => substrB s expected

/-- `enhanced_tongue_analysis` (`src/main.py` lines 234-301).  The
guard on line 242 is `not input_str or ("|" not in input_str and
input_str not in TONGUE_DATABASE)`; then the input is split on `"|"`,
the tongue type is `parts[0].strip()`, the symptoms are the
comma-split, stripped `parts[1]` when present and non-empty.  On a hit
the record is appended through `add_tongue_record` with the profile's
constitution.  `record_id` and `date` stand for the `uuid.uuid4()` and
`datetime.now()` readings made inside `add_tongue_record`. -/
def enhanced_tongue_analysis (users : Store)
    (current_user_id input_str record_id date : String) : ToolResult × Store :=
  if input_str = "" ∨
      (input_str.data.contains '|' = false ∧ TONGUE_DATABASE.lookup input_str = none) then
    (.formatError tongueKeys, users)
  else
    let parts := pySplit input_str '|'
    let tongue_type := pyStrip (parts.headD "")
    let symptoms :=
      if 1 < parts.length ∧ parts.getD 1 "" ≠ "" then
        (pySplit (parts.getD 1 "") ',').map pyStrip
      else []
    match TONGUE_DATABASE.lookup tongue_type with
    | none => (.unknownType tongue_type tongueKeys, users)
    | some info =>
        let result := add_tongue_record users current_user_id tongue_type
          info.constitution symptoms record_id date
        (.analysis result.1 tongue_type info
          (symptoms.filter fun s => symptomMatches s info.symptoms)
          (symptoms.filter fun s => !symptomMatches s info.symptoms),
         result.2)

/-- Whether a `ToolResult` is one of the two error messages of
`enhanced_tongue_analysis` (the early returns on lines 244 and 253). -/
def isErrorResult : ToolResult → Bool
  | .formatError _ => true
  | .unknownType _ _ => true
  | .analysis _ _ _ _ _ => false

/-- Result of `get_user_history_formatted` (`src/main.py` lines
329-345): the "暫無歷史記錄" message when the history is empty,
otherwise one line per record carrying the 1-based index, the date, the
tongue type and the constitution (the `strftime` re-rendering of the
date is abstracted to the raw date). -/
inductive HistoryReport where
  | empty
  | listing (entries : List (Nat × String × String × String))
deriving DecidableEq, Repr

/-- `get_user_history_formatted` (`src/main.py` lines 329-345). -/
def get_user_history_formatted (users : Store) (current_user_id : String) :
    HistoryReport :=
  match get_user_history users current_user_id 10 with
  | [] => .empty
  | history =>
      .listing ((history.enum).map fun p =>
        (p.1 + 1, p.2.date, p.2.tongue_type, p.2.constitution))

/-- The conditional prose blocks of `weather_constitution_advice`
(`src/main.py` lines 459-469), in the order the Python code appends
them to the advice text. -/
inductive AdviceBlock where
  | dampBlock
  | spleenDampClause
  | dampHeatClause
  | heatClause
  | coldClause
deriving DecidableEq, Repr

/-- The advice composition of `weather_constitution_advice`
(`src/main.py` lines 459-469): the dampness block when humidity > 75,
inside it one constitution-specific clause chosen by an if/elif on the
constitution, then an if/elif on temperature adds the heat block
(> 30) or the cold block (< 15).  Humidity and temperature are the
numbers read from the weather response; only their order against the
integer thresholds matters here. -/
def weather_constitution_advice (humidity temperature : Int)
    (constitution : String) : List AdviceBlock :=
  (if 75 < humidity then
     [AdviceBlock.dampBlock] ++
       (if constitution = "脾虛濕重" then [AdviceBlock.spleenDampClause]
        else if constitution = "濕熱體質" then [AdviceBlock.dampHeatClause]
        else [])
   else []) ++
  (if 30 < temperature then [AdviceBlock.heatClause]
   else if temperature < 15 then [AdviceBlock.coldClause]
   else [])

/-- One tool-level append call: the data of one `add_tongue_record`
invocation for a fixed user, with its clock and uuid readings. -/
structure AppendCall where
  tongue_type : String
  constitution : String
  symptoms : List String
  record_id : String
  date : String
deriving DecidableEq, Repr

/-- The record that `add_tongue_record` builds from one call. -/
def callRecord (c : AppendCall) : TongueRecord :=
  mkRecord c.record_id c.date c.tongue_type c.constitution c.symptoms

/-- N successive `add_tongue_record` calls for one user. -/
def runAppends (users : Store) (user_id : String) (calls : List AppendCall) : Store :=
  calls.foldl
    (fun st c =>
      (add_tongue_record st user_id c.tongue_type c.constitution c.symptoms
        c.record_id c.date).2)
    users

/-- Sum of the counts of the constitution frequency dict. -/
def trendSum (trends : List (String × Nat)) : Nat :=
  (trends.map Prod.snd).sum

/-- The frequency-count invariant of one user document: counts sum to
the number of records. -/
def userInvariant (u : UserData) : Prop :=
  trendSum u.constitution_trends = u.tongue_records.length

/-- The `total_records` field of an analysis result, when present. -/
def analysisTotal : AnalysisResult → Option Nat
  | .ok _ _ _ _ n => some n
  | _ => none

/-- The effect of one `add_tongue_record` call on a user's document:
append the built record, bump the constitution counter. -/
def appendOnce (u : UserData) (c : AppendCall) : UserData :=
  { u with
    tongue_records := u.tongue_records ++ [callRecord c]
    constitution_trends := update_constitution_trends u.constitution_trends c.constitution }

/-- Two concrete appends with strictly increasing timestamps, for the
C4 witness. -/
def c4Calls : List AppendCall :=
  [⟨"舌頭有紅點", "內熱過盛", ["口乾"], "r1", "2024-01-01T10:00:00"⟩,
   ⟨"舌苔黃厚", "濕熱體質", [], "r2", "2024-01-02T10:00:00"⟩]

/-- A concrete user document with a tied frequency map, for the C2
witness. -/
def c2User : UserData :=
  { initUser "" 0 "" "d" with
    tongue_records := [mkRecord "r1" "d1" "舌頭有紅點" "內熱過盛" [],
                       mkRecord "r2" "d2" "舌苔黃厚" "濕熱體質" []]
    constitution_trends := [("內熱過盛", 1), ("濕熱體質", 1)] }

theorem charLe_total : ∀ as bs : List Char, charLe as bs = true ∨ charLe bs as = true := by
  intro as
  induction as with
  | nil => intro bs; left; rfl
  | cons a as ih =>
      intro bs
      cases bs with
      | nil => right; rfl
      | cons b bs =>
          by_cases h1 : a.toNat < b.toNat
          · left; simp [charLe, h1]
          · by_cases h2 : b.toNat < a.toNat
            · right; simp [charLe, h2]
            · have := ih bs
              simp only [charLe, h1, h2, if_false, if_true]
              simpa [charLe, h1, h2] using this

theorem charLe_trans : ∀ as bs cs : List Char,
    charLe as bs = true → charLe bs cs = true → charLe as cs = true := by
  intro as
  induction as with
  | nil => intro bs cs _ _; rfl
  | cons a as ih =>
      intro bs cs hab hbc
      cases bs with
      | nil => simp [charLe] at hab
      | cons b bs =>
          cases cs with
          | nil => simp [charLe] at hbc
          | cons c cs =>
              simp only [charLe] at hab hbc ⊢
              split_ifs at hab hbc ⊢ with h1 h2 h3 h4 h5 h6 <;>
                first
                  | rfl
                  | omega
                  | exact ih bs cs hab hbc

instance : IsTotal TongueRecord dateGe :=
  ⟨fun a b => charLe_total b.date.data a.date.data⟩

instance : IsTrans TongueRecord dateGe :=
  ⟨fun _ _ _ h1 h2 => charLe_trans _ _ _ h2 h1⟩

/-! ### Association-list helper lemmas -/

theorem lookup_append_of_none {β : Type} (l2 : List (String × β)) (k : String) :
    ∀ l1 : List (String × β), l1.lookup k = none → (l1 ++ l2).lookup k = l2.lookup k := by
  intro l1
  induction l1 with
  | nil => intro _; rfl
  | cons p rest ih =>
      obtain ⟨k1, v1⟩ := p
      intro h
      cases hbeq : (k == k1) with
      | true => simp [List.lookup_cons, hbeq] at h
      | false =>
          simp only [List.cons_append, List.lookup_cons, hbeq] at h ⊢
          exact ih h

theorem lookup_singleton_self {β : Type} (k : String) (v : β) :
    ([(k, v)] : List (String × β)).lookup k = some v := by
  simp [List.lookup_cons]

theorem lookup_updateUser_self (f : UserData → UserData) (user_id : String) :
    ∀ users : Store,
      (updateUser users user_id f).lookup user_id = (users.lookup user_id).map f := by
  intro users
  induction users with
  | nil => rfl
  | cons p rest ih =>
      obtain ⟨k, u⟩ := p
      by_cases hk : k = user_id
      · subst hk
        simp [updateUser, List.lookup_cons]
      · have hbeq : (user_id == k) = false := beq_eq_false_iff_ne.mpr (Ne.symm hk)
        simp [updateUser, hk, List.lookup_cons, hbeq, ih]

/-- `add_tongue_record` on a user already in the store: the user's
document gains the new record at the end and the bumped counter. -/
theorem add_tongue_record_lookup_some (users : Store) (user_id t c : String)
    (sy : List String) (rid date : String) (u : UserData)
    (h : users.lookup user_id = some u) :
    ((add_tongue_record users user_id t c sy rid date).2).lookup user_id =
      some { u with
             tongue_records := u.tongue_records ++ [mkRecord rid date t c sy]
             constitution_trends := update_constitution_trends u.constitution_trends c } := by
  unfold add_tongue_record
  simp only [h, Option.isSome_some, if_true]
  rw [lookup_updateUser_self, h]
  rfl

/-- `add_tongue_record` on an absent user: the auto-created document
holds exactly the new record and the counter `{constitution: 1}`. -/
theorem add_tongue_record_lookup_none (users : Store) (user_id t c : String)
    (sy : List String) (rid date : String)
    (h : users.lookup user_id = none) :
    ((add_tongue_record users user_id t c sy rid date).2).lookup user_id =
      some { initUser "" 0 "" date with
             tongue_records := [mkRecord rid date t c sy]
             constitution_trends := [(c, 1)] } := by
  unfold add_tongue_record create_user
  simp only [h, Option.isSome_none, Bool.false_eq_true, if_false]
  rw [lookup_updateUser_self, lookup_append_of_none _ _ _ h, lookup_singleton_self]
  rfl

theorem create_user_none (users : Store) (user_id name : String) (age : Nat)
    (gender created_at : String) (h : users.lookup user_id = none) :
    create_user users user_id name age gender created_at =
      (true, users ++ [(user_id, initUser name age gender created_at)]) := by
  unfold create_user
  simp [h]

theorem create_user_some (users : Store) (user_id name : String) (age : Nat)
    (gender created_at : String) (u : UserData) (h : users.lookup user_id = some u) :
    create_user users user_id name age gender created_at = (false, users) := by
  unfold create_user
  simp [h]

/-! ### C3 — create_user idempotence -/

/-- C3: for a fresh id, the first `create_user` call returns `true`
and the second returns `false` and performs no mutation at all: the
store after the second call is the store after the first, the stored
document is still the one the first call wrote, and its `created_at`
is still the first call's timestamp. -/
theorem C3_create_user_idempotent (users : Store) (user_id name1 name2 : String)
    (age1 age2 : Nat) (gender1 gender2 d1 d2 : String)
    (h : users.lookup user_id = none) :
    (create_user users user_id name1 age1 gender1 d1).1 = true ∧
      (create_user (create_user users user_id name1 age1 gender1 d1).2
          user_id name2 age2 gender2 d2).1 = false ∧
      (create_user (create_user users user_id name1 age1 gender1 d1).2
          user_id name2 age2 gender2 d2).2 =
        (create_user users user_id name1 age1 gender1 d1).2 ∧
      ((create_user (create_user users user_id name1 age1 gender1 d1).2
          user_id name2 age2 gender2 d2).2).lookup user_id =
        some (initUser name1 age1 gender1 d1) ∧
      (initUser name1 age1 gender1 d1).created_at = d1 := by
  have h1 := create_user_none users user_id name1 age1 gender1 d1 h
  have hl : ((create_user users user_id name1 age1 gender1 d1).2).lookup user_id =
      some (initUser name1 age1 gender1 d1) := by
    rw [h1]
    rw [lookup_append_of_none _ _ _ h, lookup_singleton_self]
  have h2 := create_user_some (create_user users user_id name1 age1 gender1 d1).2
    user_id name2 age2 gender2 d2 (initUser name1 age1 gender1 d1) hl
  refine ⟨by rw [h1], by rw [h2], by rw [h2], ?_, rfl⟩
  rw [h2]
  exact hl

/-- C3 witness: both calls evaluated on the empty store. -/
theorem C3_create_user_idempotent_witness :
    ([] : Store).lookup "u1" = none ∧
      (create_user [] "u1" "王" 30 "F" "2024-01-01").1 = true ∧
      (create_user (create_user [] "u1" "王" 30 "F" "2024-01-01").2
          "u1" "李" 40 "M" "2024-02-02").1 = false ∧
      (create_user (create_user [] "u1" "王" 30 "F" "2024-01-01").2
          "u1" "李" 40 "M" "2024-02-02").2 =
        (create_user [] "u1" "王" 30 "F" "2024-01-01").2 := by
  have h := C3_create_user_idempotent [] "u1" "王" "李" 30 40 "F" "M"
    "2024-01-01" "2024-02-02" rfl
  exact ⟨rfl, h.1, h.2.1, h.2.2.1⟩

/-! ### C5 — frequency counts sum to the record count -/

theorem trendSum_update (c : String) :
    ∀ trends : List (String × Nat),
      trendSum (update_constitution_trends trends c) = trendSum trends + 1 := by
  intro trends
  induction trends with
  | nil => rfl
  | cons p rest ih =>
      obtain ⟨k, n⟩ := p
      by_cases hk : k = c
      · subst hk
        simp [update_constitution_trends, trendSum]
        omega
      · simp only [update_constitution_trends, hk, if_false, trendSum, List.map_cons,
          List.sum_cons] at ih ⊢
        omega

/-- C5: one `update_constitution_trends` adds exactly one to the sum
of the counts, and `add_tongue_record` preserves the invariant that
the counts sum to the number of records (appending one record and
incrementing exactly one counter by one, or creating the user with one
record and the counter at 1). -/
theorem C5_frequency_invariant (users : Store) (user_id t c : String)
    (sy : List String) (rid date : String)
    (h : ∀ u, users.lookup user_id = some u → userInvariant u) :
    (∀ (trends : List (String × Nat)) (c2 : String),
        trendSum (update_constitution_trends trends c2) = trendSum trends + 1) ∧
      ∀ u', ((add_tongue_record users user_id t c sy rid date).2).lookup user_id = some u' →
        userInvariant u' := by
  refine ⟨fun trends c2 => trendSum_update c2 trends, ?_⟩
  intro u' hu'
  cases hl : users.lookup user_id with
  | none =>
      rw [add_tongue_record_lookup_none users user_id t c sy rid date hl] at hu'
      simp only [Option.some.injEq] at hu'
      subst hu'
      simp [userInvariant, trendSum, initUser]
  | some u =>
      rw [add_tongue_record_lookup_some users user_id t c sy rid date u hl] at hu'
      simp only [Option.some.injEq] at hu'
      subst hu'
      have hinv := h u hl
      unfold userInvariant at hinv ⊢
      simp only [trendSum_update, List.length_append, List.length_cons, List.length_nil, hinv]

/-- C5 witness: the invariant checked after one append on the empty
store. -/
theorem C5_frequency_invariant_witness :
    trendSum (update_constitution_trends [("內熱過盛", 1)] "濕熱體質") =
        trendSum [("內熱過盛", 1)] + 1 ∧
      userInvariant
        { initUser "" 0 "" "d" with
          tongue_records := [mkRecord "r" "d" "舌頭有紅點" "內熱過盛" []]
          constitution_trends := [("內熱過盛", 1)] } := by
  have h := C5_frequency_invariant [] "u1" "舌頭有紅點" "內熱過盛" [] "r" "d"
    (fun u hu => by cases hu)
  refine ⟨(h.1 [("內熱過盛", 1)] "濕熱體質"), h.2 _ ?_⟩
  rw [add_tongue_record_lookup_none [] "u1" "舌頭有紅點" "內熱過盛" [] "r" "d" rfl]

/-! ### C7 — error results leave the store untouched -/

/-- C7: whenever `enhanced_tongue_analysis` produces one of its two
error results (format error or unrecognized observation key, with or
without the separator), the returned store is exactly the input store
— no record appended, no counter incremented, no user created — and
the error carries the enumerated list of valid keys. -/
theorem C7_errors_no_mutation (users : Store)
    (current_user_id input_str record_id date : String) :
    (isErrorResult (enhanced_tongue_analysis users current_user_id input_str
          record_id date).1 = true →
        (enhanced_tongue_analysis users current_user_id input_str record_id date).2 =
          users) ∧
      (∀ ks, (enhanced_tongue_analysis users current_user_id input_str record_id date).1 =
          ToolResult.formatError ks → ks = tongueKeys) ∧
      (∀ ty ks, (enhanced_tongue_analysis users current_user_id input_str record_id date).1 =
          ToolResult.unknownType ty ks → ks = tongueKeys) := by
  unfold enhanced_tongue_analysis
  split_ifs with hc
  · refine ⟨fun _ => rfl, ?_, ?_⟩
    · intro ks hks
      cases hks
      rfl
    · intro ty ks hks
      cases hks
  · dsimp only
    cases hdb : TONGUE_DATABASE.lookup (pyStrip ((pySplit input_str '|').headD "")) with
    | none =>
        dsimp only
        refine ⟨fun _ => rfl, ?_, ?_⟩
        · intro ks hks
          cases hks
        · intro ty ks hks
          cases hks
          rfl
    | some info =>
        dsimp only
        refine ⟨?_, ?_, ?_⟩
        · intro hfalse
          simp [isErrorResult] at hfalse
        · intro ks hks
          cases hks
        · intro ty ks hks
          cases hks

/-- C7 witness: an unrecognized key with a separator leaves the empty
store empty and lists the keys. -/
theorem C7_errors_no_mutation_witness :
    isErrorResult (enhanced_tongue_analysis [] "u1" "亂寫|口乾" "r" "d").1 = true ∧
      (enhanced_tongue_analysis [] "u1" "亂寫|口乾" "r" "d").2 = [] ∧
      (enhanced_tongue_analysis [] "u1" "亂寫|口乾" "r" "d").1 =
        ToolResult.unknownType "亂寫" tongueKeys := by
  have h := C7_errors_no_mutation [] "u1" "亂寫|口乾" "r" "d"
  exact ⟨by decide, h.1 (by decide), by decide⟩

/-! ### C6 — exact hit and exhaustive miss of the reference table -/

theorem lookup_isSome_iff_mem_keys {β : Type} :
    ∀ l : List (String × β), ∀ k, (l.lookup k).isSome = true ↔ k ∈ l.map Prod.fst := by
  intro l
  induction l with
  | nil => simp [List.lookup]
  | cons p rest ih =>
      obtain ⟨k1, v⟩ := p
      intro k
      cases hbeq : (k == k1) with
      | true =>
          have hk : k = k1 := beq_iff_eq.mp hbeq
          subst hk
          simp [List.lookup_cons, hbeq]
      | false =>
          have hne : k ≠ k1 := beq_eq_false_iff_ne.mp hbeq
          simp [List.lookup_cons, hbeq, hne, ih]

/-- After any `add_tongue_record` the user exists and the latest
record in their document is exactly the one just built. -/
theorem add_tongue_record_getLast (users : Store) (user_id t c : String)
    (sy : List String) (rid date : String) :
    ∃ u', ((add_tongue_record users user_id t c sy rid date).2).lookup user_id = some u' ∧
      u'.tongue_records.getLast? = some (mkRecord rid date t c sy) := by
  cases hl : users.lookup user_id with
  | none =>
      exact ⟨_, add_tongue_record_lookup_none users user_id t c sy rid date hl, rfl⟩
  | some u =>
      refine ⟨_, add_tongue_record_lookup_some users user_id t c sy rid date u hl, ?_⟩
      exact List.getLast?_concat _

/-- `enhanced_tongue_analysis` on a bare observation key that the
table holds (no separator, no surrounding whitespace): the result is
the analysis carrying the stored profile, and the store advances by
exactly the corresponding `add_tongue_record` call with no symptoms. -/
theorem enhanced_hit (users : Store) (uid k rid date : String) (info : TongueInfo)
    (hk : k ≠ "")
    (hsplit : pySplit k '|' = [k])
    (htrim : pyStrip k = k)
    (hdb : TONGUE_DATABASE.lookup k = some info) :
    enhanced_tongue_analysis users uid k rid date =
      (ToolResult.analysis rid k info [] [],
        (add_tongue_record users uid k info.constitution [] rid date).2) := by
  have hc : ¬ (k = "" ∨ (k.data.contains '|' = false ∧ TONGUE_DATABASE.lookup k = none)) := by
    rintro (h1 | ⟨h2, h3⟩)
    · exact hk h1
    · rw [hdb] at h3
      cases h3
  unfold enhanced_tongue_analysis
  rw [if_neg hc]
  dsimp only
  rw [hsplit]
  dsimp only [List.headD]
  rw [htrim, hdb]
  dsimp only
  rw [if_neg (by simp)]
  rfl

/-- One table entry, checked: hit on its bare key returns its stored
profile and leaves the freshly built record last in the user's
document. -/
theorem hitCase (users : Store) (uid rid date k : String) (info : TongueInfo)
    (hk : k ≠ "") (hsplit : pySplit k '|' = [k]) (htrim : pyStrip k = k)
    (hdb : TONGUE_DATABASE.lookup k = some info) :
    (enhanced_tongue_analysis users uid k rid date).1 =
        ToolResult.analysis rid k info [] [] ∧
      ∃ u', ((enhanced_tongue_analysis users uid k rid date).2).lookup uid = some u' ∧
        u'.tongue_records.getLast? = some (mkRecord rid date k info.constitution []) := by
  rw [enhanced_hit users uid k rid date info hk hsplit htrim hdb]
  exact ⟨rfl, add_tongue_record_getLast users uid k info.constitution [] rid date⟩

/-- C6: for every entry of the reference table, analysing its key
returns the exact stored profile and records a tongue record carrying
that key and its constitution; for every input that is no table key
and has no separator, the result is the miss message enumerating the
(duplicate-free, exhaustive) key list, with the store unchanged. -/
theorem C6_lookup_hit_miss :
    (∀ p ∈ TONGUE_DATABASE, ∀ (users : Store) (uid rid date : String),
        (enhanced_tongue_analysis users uid p.1 rid date).1 =
          ToolResult.analysis rid p.1 p.2 [] [] ∧
        ∃ u', ((enhanced_tongue_analysis users uid p.1 rid date).2).lookup uid = some u' ∧
          u'.tongue_records.getLast? = some (mkRecord rid date p.1 p.2.constitution [])) ∧
      (∀ s : String, s.data.contains '|' = false → TONGUE_DATABASE.lookup s = none →
        ∀ (users : Store) (uid rid date : String),
          enhanced_tongue_analysis users uid s rid date =
            (ToolResult.formatError tongueKeys, users)) ∧
      tongueKeys.Nodup ∧
      (∀ k, k ∈ tongueKeys ↔ (TONGUE_DATABASE.lookup k).isSome = true) := by
  refine ⟨?_, ?_, by decide,
    fun k => (lookup_isSome_iff_mem_keys TONGUE_DATABASE k).symm⟩
  · intro p hp users uid rid date
    fin_cases hp
    · exact hitCase users uid rid date "舌頭有紅點" redDotProfile
        (by decide) (by decide) (by decide) (by decide)
    · exact hitCase users uid rid date "舌尖及側邊發紅" liverQiProfile
        (by decide) (by decide) (by decide) (by decide)
    · exact hitCase users uid rid date "舌頭有齒痕" toothMarkProfile
        (by decide) (by decide) (by decide) (by decide)
    · exact hitCase users uid rid date "舌頭有溝痕" fissureProfile
        (by decide) (by decide) (by decide) (by decide)
    · exact hitCase users uid rid date "舌苔黃厚" yellowCoatProfile
        (by decide) (by decide) (by decide) (by decide)
    · exact hitCase users uid rid date "舌苔白厚" whiteCoatProfile
        (by decide) (by decide) (by decide) (by decide)
    · exact hitCase users uid rid date "淡紅色舌且舌苔淺白" healthyProfile
        (by decide) (by decide) (by decide) (by decide)
  · intro s hbar hnone users uid rid date
    unfold enhanced_tongue_analysis
    rw [if_pos (Or.inr ⟨hbar, hnone⟩)]

/-- C6 witness: the first key hit and a concrete miss, on the empty
store. -/
theorem C6_lookup_hit_miss_witness :
    ("舌頭有紅點", redDotProfile) ∈ TONGUE_DATABASE ∧
      (enhanced_tongue_analysis [] "u1" "舌頭有紅點" "r" "d").1 =
        ToolResult.analysis "r" "舌頭有紅點" redDotProfile [] [] ∧
      "嗯哼".data.contains '|' = false ∧
      TONGUE_DATABASE.lookup "嗯哼" = none ∧
      enhanced_tongue_analysis [] "u1" "嗯哼" "r" "d" =
        (ToolResult.formatError tongueKeys, []) := by
  refine ⟨by decide, ?_, by decide, by decide, ?_⟩
  · exact ((C6_lookup_hit_miss).1 ("舌頭有紅點", redDotProfile)
      (by decide) [] "u1" "r" "d").1
  · exact (C6_lookup_hit_miss).2.1 "嗯哼" (by decide) (by decide) [] "u1" "r" "d"

/-! ### C1 — symptom-matching direction -/

/-- C1: counterexample.  The claim says a user symptom matches exactly
when some profile symptom occurs inside it, so "口乾舌燥" against the
profile symptoms of "舌頭有紅點" (which include "口乾") would have to
match; the code classifies it as unmatched even though "口乾" does
occur inside "口乾舌燥". -/
theorem C1_counterexample :
    symptomMatches "口乾舌燥" ["口乾", "煩躁", "失眠"] = false ∧
      "口乾".data <:+: "口乾舌燥".data := by
  exact ⟨by decide, by decide⟩

/-- C1 (amended): in symptom reconciliation the user-supplied symptom
is classified as matching the profile exactly when the user's symptom
string appears as a substring of some profile symptom (the opposite
direction from the claim); in particular "口乾" against a profile
containing "口乾" matches, while "口乾舌燥" against such a profile does
not. -/
theorem C1_symptom_match_direction :
    (∀ (s : String) (profileSymptoms : List String),
        symptomMatches s profileSymptoms = true ↔
          ∃ expected ∈ profileSymptoms, s.data <:+: expected.data) ∧
      symptomMatches "口乾" ["口乾", "煩躁", "失眠"] = true ∧
      symptomMatches "口乾舌燥" ["口乾", "煩躁", "失眠"] = false := by
  refine ⟨?_, by decide, by decide⟩
  intro s profileSymptoms
  simp [symptomMatches, substrB, List.any_eq_true]

/-! ### C4 — N appends: history order and total count -/

theorem add_step_some (users : Store) (user_id : String) (c : AppendCall) (u : UserData)
    (h : users.lookup user_id = some u) :
    ((add_tongue_record users user_id c.tongue_type c.constitution c.symptoms
        c.record_id c.date).2).lookup user_id = some (appendOnce u c) :=
  add_tongue_record_lookup_some users user_id c.tongue_type c.constitution c.symptoms
    c.record_id c.date u h

theorem add_step_none (users : Store) (user_id : String) (c : AppendCall)
    (h : users.lookup user_id = none) :
    ((add_tongue_record users user_id c.tongue_type c.constitution c.symptoms
        c.record_id c.date).2).lookup user_id =
      some (appendOnce (initUser "" 0 "" c.date) c) :=
  add_tongue_record_lookup_none users user_id c.tongue_type c.constitution c.symptoms
    c.record_id c.date h

theorem runAppends_lookup (user_id : String) :
    ∀ (calls : List AppendCall) (users : Store) (u : UserData),
      users.lookup user_id = some u →
      (runAppends users user_id calls).lookup user_id = some (calls.foldl appendOnce u) := by
  intro calls
  induction calls with
  | nil => intro users u h; exact h
  | cons c cs ih =>
      intro users u h
      exact ih _ _ (add_step_some users user_id c u h)

theorem foldl_appendOnce_records (calls : List AppendCall) :
    ∀ u : UserData,
      (calls.foldl appendOnce u).tongue_records =
        u.tongue_records ++ calls.map callRecord := by
  induction calls with
  | nil => intro u; simp
  | cons c cs ih =>
      intro u
      rw [List.foldl_cons, ih, List.map_cons]
      simp [appendOnce, List.append_assoc]

theorem foldl_appendOnce_trends (calls : List AppendCall) :
    ∀ u : UserData,
      (calls.foldl appendOnce u).constitution_trends =
        calls.foldl (fun t c => update_constitution_trends t c.constitution)
          u.constitution_trends := by
  induction calls with
  | nil => intro u; rfl
  | cons c cs ih =>
      intro u
      rw [List.foldl_cons, List.foldl_cons, ih]
      rfl

/-- Inserting below every element of a descending list lands at the
end. -/
theorem orderedInsert_append_last (a : TongueRecord) :
    ∀ l : List TongueRecord, (∀ b ∈ l, ¬ dateGe a b) →
      l.orderedInsert dateGe a = l ++ [a] := by
  intro l
  induction l with
  | nil => intro _; rfl
  | cons b l ih =>
      intro h
      simp only [List.orderedInsert]
      rw [if_neg (h b (List.mem_cons_self b l))]
      rw [ih (fun x hx => h x (List.mem_cons_of_mem b hx))]
      rfl

/-- On strictly increasing dates, the stable descending sort is the
reversal of the append order. -/
theorem insertionSort_strict_reverse :
    ∀ l : List TongueRecord, l.Pairwise (fun x y => ¬ dateGe x y) →
      l.insertionSort dateGe = l.reverse := by
  intro l
  induction l with
  | nil => intro _; rfl
  | cons a l ih =>
      intro h
      rw [List.pairwise_cons] at h
      simp only [List.insertionSort]
      rw [ih h.2]
      rw [orderedInsert_append_last a l.reverse (fun b hb => h.1 b (List.mem_reverse.mp hb))]
      simp

/-- C4: starting from a store without the user, after the N
`add_tongue_record` calls of `calls` the history query with limit N
returns a permutation of exactly those N records, sorted
most-recent-first; when the call timestamps are strictly increasing it
is exactly the reversed append order; and for N ≥ 1 the analysis
reports `total_records = N`. -/
theorem C4_append_history (users : Store) (user_id : String) (calls : List AppendCall)
    (h : users.lookup user_id = none) :
    (get_user_history (runAppends users user_id calls) user_id calls.length).Perm
        (calls.map callRecord) ∧
      List.Sorted dateGe
        (get_user_history (runAppends users user_id calls) user_id calls.length) ∧
      (calls.Pairwise (fun c1 c2 => dateLe c2.date c1.date = false) →
        get_user_history (runAppends users user_id calls) user_id calls.length =
          (calls.map callRecord).reverse) ∧
      (calls ≠ [] →
        analysisTotal (get_constitution_analysis (runAppends users user_id calls) user_id) =
          some calls.length) := by
  cases calls with
  | nil =>
      have hist : get_user_history (runAppends users user_id []) user_id
          (List.length ([] : List AppendCall)) = [] := by
        unfold get_user_history runAppends
        rw [List.foldl_nil, h]
      rw [hist]
      exact ⟨List.Perm.refl _, List.sorted_nil, fun _ => rfl, fun hne => absurd rfl hne⟩
  | cons c cs =>
      have h0 : (runAppends users user_id (c :: cs)).lookup user_id =
          some ((c :: cs).foldl appendOnce (initUser "" 0 "" c.date)) :=
        runAppends_lookup user_id cs _ _ (add_step_none users user_id c h)
      have hrecs : ((c :: cs).foldl appendOnce (initUser "" 0 "" c.date)).tongue_records =
          (c :: cs).map callRecord := by
        rw [foldl_appendOnce_records]
        rfl
      have hhist : get_user_history (runAppends users user_id (c :: cs)) user_id
          (c :: cs).length = ((c :: cs).map callRecord).insertionSort dateGe := by
        unfold get_user_history
        rw [h0]
        dsimp only
        rw [hrecs]
        unfold sortRecords
        have hlen : (c :: cs).length =
            (((c :: cs).map callRecord).insertionSort dateGe).length := by
          rw [List.length_insertionSort, List.length_map]
        rw [hlen, List.take_length]
      refine ⟨?_, ?_, ?_, ?_⟩
      · rw [hhist]
        exact List.perm_insertionSort dateGe _
      · rw [hhist]
        exact List.sorted_insertionSort dateGe _
      · intro hp
        rw [hhist]
        apply insertionSort_strict_reverse
        refine List.pairwise_map.mpr (hp.imp ?_)
        intro c1 c2 hab
        simp [dateGe, callRecord, mkRecord, hab]
      · intro _
        unfold get_constitution_analysis
        rw [h0]
        dsimp only
        have hne2 : ((c :: cs).foldl appendOnce (initUser "" 0 "" c.date)).tongue_records ≠
            [] := by
          rw [hrecs]
          simp
        obtain ⟨x, hx⟩ := Option.isSome_iff_exists.mp (List.getLast?_isSome.mpr hne2)
        rw [hx]
        dsimp only [analysisTotal]
        rw [hrecs, List.length_map]

/-- C4 witness: the theorem instantiated on the empty store and two
concrete appends. -/
theorem C4_append_history_witness :
    ([] : Store).lookup "u1" = none ∧
      (get_user_history (runAppends [] "u1" c4Calls) "u1" c4Calls.length).Perm
          (c4Calls.map callRecord) ∧
      List.Sorted dateGe (get_user_history (runAppends [] "u1" c4Calls) "u1" c4Calls.length) ∧
      (c4Calls.Pairwise (fun c1 c2 => dateLe c2.date c1.date = false) →
        get_user_history (runAppends [] "u1" c4Calls) "u1" c4Calls.length =
          (c4Calls.map callRecord).reverse) ∧
      (c4Calls ≠ [] →
        analysisTotal (get_constitution_analysis (runAppends [] "u1" c4Calls) "u1") =
          some c4Calls.length) := by
  have h := C4_append_history [] "u1" c4Calls rfl
  exact ⟨rfl, h.1, h.2.1, h.2.2.1, h.2.2.2⟩

/-! ### C2 — most-frequent constitution and its tie-break -/

theorem maxCount_cons (x : String × Nat) (rest : List (String × Nat)) :
    maxCount (x :: rest) = Nat.max x.2 (maxCount rest) := rfl

theorem pyMaxBySnd_of_le (best : String × Nat) :
    ∀ l : List (String × Nat), maxCount l ≤ best.2 → pyMaxBySnd best l = best := by
  intro l
  induction l with
  | nil => intro _; rfl
  | cons x rest ih =>
      intro h
      rw [maxCount_cons] at h
      have h1 : x.2 ≤ best.2 := le_trans (Nat.le_max_left _ _) h
      have h2 : maxCount rest ≤ best.2 := le_trans (Nat.le_max_right _ _) h
      have hx : ¬ best.2 < x.2 := by omega
      simp only [pyMaxBySnd, hx, if_false]
      exact ih h2

/-- Python's running `max` returns the first element attaining the
maximum count: it equals `find?` with the predicate "count equals the
maximum", provided the running best is already beaten. -/
theorem pyMaxBySnd_find :
    ∀ (l : List (String × Nat)) (best : String × Nat), best.2 < maxCount l →
      l.find? (fun p => p.2 == maxCount l) = some (pyMaxBySnd best l) := by
  intro l
  induction l with
  | nil =>
      intro best h
      exact absurd h (by simp [maxCount])
  | cons x rest ih =>
      intro best h
      rw [maxCount_cons] at h
      by_cases hbx : best.2 < x.2
      · by_cases hxr : maxCount rest ≤ x.2
        · have hM : maxCount (x :: rest) = x.2 := by
            rw [maxCount_cons]; exact Nat.max_eq_left hxr
          have hpy : pyMaxBySnd best (x :: rest) = x := by
            simp only [pyMaxBySnd, hbx, if_true]
            exact pyMaxBySnd_of_le x rest hxr
          rw [hM, hpy]
          exact List.find?_cons_of_pos _ (by simp)
        · have hxr' : x.2 < maxCount rest := Nat.lt_of_not_le hxr
          have hM : maxCount (x :: rest) = maxCount rest := by
            rw [maxCount_cons]; exact Nat.max_eq_right (Nat.le_of_lt hxr')
          have hpy : pyMaxBySnd best (x :: rest) = pyMaxBySnd x rest := by
            simp [pyMaxBySnd, hbx]
          rw [hM, hpy,
            List.find?_cons_of_neg _ (by simp only [beq_iff_eq]; omega)]
          exact ih x hxr'
      · have hbr : best.2 < maxCount rest := by
          rcases lt_max_iff.mp h with h1 | h2
          · omega
          · exact h2
        have hx2 : x.2 < maxCount rest := by omega
        have hM : maxCount (x :: rest) = maxCount rest := by
          rw [maxCount_cons]; exact Nat.max_eq_right (Nat.le_of_lt hx2)
        have hpy : pyMaxBySnd best (x :: rest) = pyMaxBySnd best rest := by
          simp [pyMaxBySnd, hbx]
        rw [hM, hpy,
          List.find?_cons_of_neg _ (by simp only [beq_iff_eq]; omega)]
        exact ih best hbr

/-- On a non-empty frequency dict, `most_common_of` is the first entry
(in insertion order) whose count equals the maximum count. -/
theorem most_common_first_max (trends : List (String × Nat)) (h : trends ≠ []) :
    trends.find? (fun p => p.2 == maxCount trends) = some (most_common_of trends) ∧
      (most_common_of trends).2 = maxCount trends := by
  cases trends with
  | nil => exact absurd rfl h
  | cons t rest =>
      by_cases htr : maxCount rest ≤ t.2
      · have hM : maxCount (t :: rest) = t.2 := by
          rw [maxCount_cons]; exact Nat.max_eq_left htr
        have hpy : most_common_of (t :: rest) = t := pyMaxBySnd_of_le t rest htr
        rw [hM, hpy]
        exact ⟨List.find?_cons_of_pos _ (by simp), rfl⟩
      · have htr' : t.2 < maxCount rest := Nat.lt_of_not_le htr
        have hM : maxCount (t :: rest) = maxCount rest := by
          rw [maxCount_cons]; exact Nat.max_eq_right (Nat.le_of_lt htr')
        have hfind := pyMaxBySnd_find rest t htr'
        constructor
        · rw [hM, List.find?_cons_of_neg _ (by simp only [beq_iff_eq]; omega)]
          exact hfind
        · have hpred := List.find?_some hfind
          rw [hM]
          exact beq_iff_eq.mp hpred

/-- C2: for a stored user with records and a non-empty frequency map,
`get_constitution_analysis` reports as most-frequent constitution the
key of `most_common_of` applied to the frequency map; that pair's
count equals the maximum count in the map, and the pair is the first
entry of the map (insertion order) attaining that maximum — the
`find?` equation — so ties resolve to the first key inserted. -/
theorem C2_most_frequent (users : Store) (user_id : String) (u : UserData)
    (h : users.lookup user_id = some u) (hrec : u.tongue_records ≠ [])
    (htr : u.constitution_trends ≠ []) :
    (∃ recent trend,
        get_constitution_analysis users user_id =
          AnalysisResult.ok recent (most_common_of u.constitution_trends).1
            u.constitution_trends trend u.tongue_records.length) ∧
      (most_common_of u.constitution_trends).2 = maxCount u.constitution_trends ∧
      u.constitution_trends.find? (fun p => p.2 == maxCount u.constitution_trends) =
        some (most_common_of u.constitution_trends) := by
  obtain ⟨hfind, hsnd⟩ := most_common_first_max u.constitution_trends htr
  refine ⟨?_, hsnd, hfind⟩
  unfold get_constitution_analysis
  rw [h]
  dsimp only
  obtain ⟨x, hx⟩ := Option.isSome_iff_exists.mp (List.getLast?_isSome.mpr hrec)
  rw [hx]
  exact ⟨_, _, rfl⟩

/-- C2 witness: on a concrete tied store the reported most-frequent
key is the first one inserted. -/
theorem C2_most_frequent_witness :
    ([("u1", c2User)] : Store).lookup "u1" = some c2User ∧
      (most_common_of c2User.constitution_trends).2 = maxCount c2User.constitution_trends ∧
      c2User.constitution_trends.find?
          (fun p => p.2 == maxCount c2User.constitution_trends) =
        some (most_common_of c2User.constitution_trends) ∧
      (most_common_of c2User.constitution_trends).1 = "內熱過盛" := by
  have h := C2_most_frequent [("u1", c2User)] "u1" c2User (by decide) (by decide) (by decide)
  exact ⟨by decide, h.2.1, h.2.2, by decide⟩

/-! ### C8 — the three analysis outcomes -/

/-- C8: `get_constitution_analysis` is total (the Lean function below
is) and distinguishes its cases: an unknown id gives the
"用戶不存在" error result, a stored user with no records gives the
distinct "暫無記錄可供分析" message result, and a stored user with
records gives the full analysis payload. -/
theorem C8_analysis_cases (users : Store) (user_id : String) :
    (users.lookup user_id = none →
        get_constitution_analysis users user_id = .error "用戶不存在") ∧
      (∀ u, users.lookup user_id = some u → u.tongue_records = [] →
          get_constitution_analysis users user_id = .message "暫無記錄可供分析") ∧
      (∀ u, users.lookup user_id = some u → u.tongue_records ≠ [] →
          ∃ recent most freq trend total,
            get_constitution_analysis users user_id =
              .ok recent most freq trend total) ∧
      (AnalysisResult.error "用戶不存在" ≠ AnalysisResult.message "暫無記錄可供分析") := by
  refine ⟨?_, ?_, ?_, by decide⟩
  · intro h
    unfold get_constitution_analysis
    rw [h]
  · intro u hu hrec
    unfold get_constitution_analysis
    rw [hu]
    dsimp only
    rw [hrec]
    rfl
  · intro u hu hrec
    unfold get_constitution_analysis
    rw [hu]
    dsimp only
    obtain ⟨x, hx⟩ := Option.isSome_iff_exists.mp (List.getLast?_isSome.mpr hrec)
    rw [hx]
    exact ⟨_, _, _, _, _, rfl⟩

/-- C8 witness: the three cases evaluated on concrete stores. -/
theorem C8_analysis_cases_witness :
    get_constitution_analysis [] "u1" = .error "用戶不存在" ∧
      get_constitution_analysis [("u1", initUser "王" 30 "M" "2024-01-01")] "u1" =
        .message "暫無記錄可供分析" := by
  constructor
  · exact (C8_analysis_cases [] "u1").1 rfl
  · exact (C8_analysis_cases [("u1", initUser "王" 30 "M" "2024-01-01")] "u1").2.1
      (initUser "王" 30 "M" "2024-01-01") (by decide) rfl

/-! ### C9 — weather-advice composition -/

/-- C9: with humidity 80, temperature 32 and most-recent constitution
"濕熱體質" the composed advice holds the generic dampness block, the
damp-heat-specific clause and the heat clause but not the cold clause;
in general the dampness block appears exactly when humidity > 75, the
heat clause exactly when temperature > 30, and the cold clause exactly
when temperature < 15. -/
theorem C9_weather_blocks :
    (weather_constitution_advice 80 32 "濕熱體質" =
        [AdviceBlock.dampBlock, AdviceBlock.dampHeatClause, AdviceBlock.heatClause]) ∧
      (∀ (humidity temperature : Int) (constitution : String),
          (AdviceBlock.dampBlock ∈
              weather_constitution_advice humidity temperature constitution ↔
            75 < humidity) ∧
          (AdviceBlock.heatClause ∈
              weather_constitution_advice humidity temperature constitution ↔
            30 < temperature) ∧
          (AdviceBlock.coldClause ∈
              weather_constitution_advice humidity temperature constitution ↔
            temperature < 15)) := by
  constructor
  · decide
  · intro humidity temperature constitution
    unfold weather_constitution_advice
    refine ⟨?_, ?_, ?_⟩ <;> split_ifs <;> simp_all <;> omega

/-! ### C10 — unknown user vs user with no records in the history path -/

/-- C10: the history query returns the empty list for an unknown id
(at every limit), and the formatted history report of an unknown user
equals that of a stored user with zero records — the history path does
not distinguish the two. -/
theorem C10_history_no_user (users : Store) (user1 user2 : String) (u : UserData) :
    (∀ limit, users.lookup user1 = none → get_user_history users user1 limit = []) ∧
      (users.lookup user1 = none → users.lookup user2 = some u →
        u.tongue_records = [] →
        get_user_history_formatted users user1 = get_user_history_formatted users user2) := by
  constructor
  · intro limit h
    unfold get_user_history
    rw [h]
  · intro h1 h2 hrec
    have e1 : get_user_history users user1 10 = [] := by
      unfold get_user_history; rw [h1]
    have e2 : get_user_history users user2 10 = [] := by
      unfold get_user_history
      rw [h2]
      dsimp only
      rw [hrec]
      rfl
    unfold get_user_history_formatted
    rw [e1, e2]

/-- C10 witness: an unknown user and a stored zero-record user on a
concrete store produce the same (empty) history and report. -/
theorem C10_history_no_user_witness :
    get_user_history [("u2", initUser "王" 30 "M" "2024-01-01")] "u1" 10 = [] ∧
      get_user_history_formatted [("u2", initUser "王" 30 "M" "2024-01-01")] "u1" =
        get_user_history_formatted [("u2", initUser "王" 30 "M" "2024-01-01")] "u2" := by
  exact ⟨(C10_history_no_user [("u2", initUser "王" 30 "M" "2024-01-01")] "u1" "u2"
            (initUser "王" 30 "M" "2024-01-01")).1 10 (by decide),
         (C10_history_no_user [("u2", initUser "王" 30 "M" "2024-01-01")] "u1" "u2"
            (initUser "王" 30 "M" "2024-01-01")).2 (by decide) (by decide) rfl⟩

end Tcm
